import Mathlib

/-!
Shallow embedding of the George-Ogden/residual-streams repository.

Adapters (src/model.py, src/src/models/image.py) are embedded generically
over a tensor type `α`: the claims about them are structural (lengths,
optionality, which function is applied where), so the underlying torch
tensor operations (block forward passes, the head, the spatial pooling)
appear as abstract functions.  Metrics (src/src/metrics/*.py) need the
numeric contents, so there tensors are nested lists of rationals.
-/

namespace ResidualStreams

/-- Embeds the dataclass `VariableLengthClassifierOutput` of src/model.py
(`layer_activations: Optional[List[Tensor]]`,
`layer_predictions: Optional[List[Tensor]]`).  Both adapters always fill
`layer_activations`, so it is embedded as a plain list; `layer_predictions`
stays optional (`None` ↦ `none`). -/
structure VariableLengthClassifierOutput (α : Type) where
  layer_activations : List α
  layer_predictions : Option (List α)
  deriving DecidableEq

namespace ReducedLengthModelForSequenceClassification

/-- The data a `ReducedLengthModelForSequenceClassification` instance owns:
the underlying pretrained encoder model is represented by its embedding
layer (`embed`) and its ordered encoder blocks (`torsoBlocks`, the value of
the `torso` property, e.g. `model.bert.encoder.layer`); `head` is the
optional classification head.  `ι` is the type of tokenized inputs. -/
structure Model (ι α : Type) where
  embed : ι → α
  torsoBlocks : List (α → α)
  head : Option (α → α)

/-- Embeds the call `self.model(*args, output_hidden_states=True)` of
src/model.py line 52: per the transformers contract, `outputs.hidden_states`
is the input-embedding output followed by the output of every encoder
block, in order. -/
def hidden_states (m : Model ι α) (x : ι) : List α :=
  List.scanl (fun a blk => blk a) (m.embed x) m.torsoBlocks

/-- Embeds `ReducedLengthModelForSequenceClassification.forward`
(src/model.py lines 48-59): request all hidden states, and if a head
exists apply it to every hidden state. -/
def forward (m : Model ι α) (x : ι) : VariableLengthClassifierOutput α :=
  let hs := hidden_states m x
  { layer_activations := hs
    layer_predictions := m.head.map fun h => hs.map h }

/-- Embeds the `layers` property (src/model.py lines 61-65):
`[(i, 0) for i in range(len(self.torso) + 1)]`. -/
def layers (m : Model ι α) : List (ℕ × ℕ) :=
  (List.range (m.torsoBlocks.length + 1)).map fun i => (i, 0)

end ReducedLengthModelForSequenceClassification

/-- A residual block of a torchvision ResNet group: `run` is the block's
forward pass, `downsample` its optional downsample projection (`None` ↦
`none`; the Python truthiness test `if layer[0].downsample:` is `isSome`
since a non-`None` downsample is a non-empty `nn.Sequential`). -/
structure ResNetBlock (α : Type) where
  run : α → α
  downsample : Option (α → α)

/-- A group (`model.layer1`, ..., in torso order) is its ordered blocks. -/
abbrev ResNetGroup (α : Type) := List (ResNetBlock α)

namespace ReducedLengthModelForImageClassification

/-- The data a `ReducedLengthModelForImageClassification` owns
(src/model.py lines 67-85): the stem `feature_extractor`, the `torso`
(the ResNet groups `layer1..layer4`), and the `head`
(avgpool + flatten + fc).  `head` is total: this adapter always builds one. -/
structure Model (α : Type) where
  feature_extractor : α → α
  torso : List (ResNetGroup α)
  head : α → α

/-- Embeds the inner loop `for sublayer in layer:` of src/model.py lines
98-101: run each block, append its raw output to both the activation list
and the prediction-candidate list. -/
def runBlocks (blocks : List (ResNetBlock α)) (x : α) (outs preds : List α) :
    α × List α × List α :=
  match blocks with
  | [] => (x, outs, preds)
  | b :: bs =>
    let y := b.run x
    runBlocks bs y (outs ++ [y]) (preds ++ [y])

/-- Embeds the outer loop `for layer in self.torso:` of src/model.py lines
92-101: if the group's first block has a downsample projection, map it over
every accumulated prediction candidate, then run the group's blocks.
(A group is never empty in a torchvision ResNet; on an empty group the
Python `layer[0]` would raise, here it behaves as no-downsample.) -/
def runTorso (torso : List (ResNetGroup α)) (x : α) (outs preds : List α) :
    α × List α × List α :=
  match torso with
  | [] => (x, outs, preds)
  | g :: gs =>
    let preds1 :=
      match g.head? with
      | some b =>
        match b.downsample with
        | some d => preds.map d
        | none => preds
      | none => preds
    let r := runBlocks g x outs preds1
    runTorso gs r.1 r.2.1 r.2.2

/-- Embeds `ReducedLengthModelForImageClassification.forward`
(src/model.py lines 87-110). -/
def forward (m : Model α) (x : α) : VariableLengthClassifierOutput α :=
  let x0 := m.feature_extractor x
  let r := runTorso m.torso x0 [] []
  { layer_activations := r.2.1
    layer_predictions := some (r.2.2.map m.head) }

/-- Embeds the `layers` property (src/model.py lines 112-116):
`[(i, j) for i, layer in enumerate(self.torso) for j in range(len(layer))]`. -/
def layers (m : Model α) : List (ℕ × ℕ) :=
  m.torso.enum.flatMap fun p => (List.range p.2.length).map fun j => (p.1, j)

end ReducedLengthModelForImageClassification

namespace VariableLengthResNetForImageClassification

/-- The data a `VariableLengthResNetForImageClassification` owns
(src/src/models/image.py lines 27-45), built from the same ResNet fields
as the model.py adapter; `pool` stands for the spatial reduction
`x.mean(dim=(-1,-2)).unsqueeze(-2)` applied before recording an
activation (image.py line 62). -/
structure Model (α : Type) where
  feature_extractor : α → α
  torso : List (ResNetGroup α)
  head : α → α
  pool : α → α

/-- Embeds the inner loop `for block in layer:` of src/src/models/image.py
lines 60-64: run each block, append the spatially pooled output to the
activation list and the raw output to the prediction-candidate list. -/
def runBlocks (pool : α → α) (blocks : List (ResNetBlock α)) (x : α)
    (outs preds : List α) : α × List α × List α :=
  match blocks with
  | [] => (x, outs, preds)
  | b :: bs =>
    let y := b.run x
    runBlocks pool bs y (outs ++ [pool y]) (preds ++ [y])

/-- Embeds the outer loop `for layer in self.torso:` of
src/src/models/image.py lines 53-64. -/
def runTorso (pool : α → α) (torso : List (ResNetGroup α)) (x : α)
    (outs preds : List α) : α × List α × List α :=
  match torso with
  | [] => (x, outs, preds)
  | g :: gs =>
    let preds1 :=
      match g.head? with
      | some b =>
        match b.downsample with
        | some d => preds.map d
        | none => preds
      | none => preds
    let r := runBlocks pool g x outs preds1
    runTorso pool gs r.1 r.2.1 r.2.2

/-- Embeds `VariableLengthResNetForImageClassification.forward`
(src/src/models/image.py lines 47-75). -/
def forward (m : Model α) (x : α) : VariableLengthClassifierOutput α :=
  let x0 := m.feature_extractor x
  let r := runTorso m.pool m.torso x0 [] []
  { layer_activations := r.2.1
    layer_predictions := some (r.2.2.map m.head) }

/-- Embeds the `layers` property (src/src/models/image.py lines 71-75),
textually identical to the model.py one. -/
def layers (m : Model α) : List (ℕ × ℕ) :=
  m.torso.enum.flatMap fun p => (List.range p.2.length).map fun j => (p.1, j)

end VariableLengthResNetForImageClassification

/-! ### Metrics (src/src/metrics/)

Metric tensors are concrete: an activation tensor of shape `[B, N, H]`
(batch, positions, hidden width) is a `Tensor3`, a batch element a `Mat`,
a hidden-width vector a `Vec`.  Rationals stand for the floats; torch and
numpy reductions over rectangular tensors are embedded as list folds.
Note that in Lean `x / 0 = 0`, where numpy/torch produce `nan`/`inf`; the
division-by-zero cases are flagged where they matter. -/

abbrev Vec := List ℚ
abbrev Mat := List Vec
abbrev Tensor3 := List Mat
abbrev Output := VariableLengthClassifierOutput Tensor3

/-- numpy/torch `.mean` over the last axis of a vector: sum / length. -/
def vecMean (v : Vec) : ℚ := v.sum / v.length

/-- numpy `.mean(axis=(-1,-2))` on one `[N, H]` batch element of a squared
tensor: total sum of squares divided by the total entry count. -/
def matMeanSq (m : Mat) : ℚ :=
  (m.map fun r => (r.map fun x => x ^ 2).sum).sum / (m.map List.length).sum

/-- The state shared by the scalar metrics: `value` is `none` while it is
still the initial scalar zero (numpy broadcasting turns `0 + array` into
the array on the first `update`), `some v` once it is a per-layer array. -/
structure MetricState where
  value : Option (List ℚ)
  count : ℕ
  deriving DecidableEq

/-- numpy `self.value += arr`: broadcast on the initial scalar zero,
elementwise addition afterwards (a length mismatch raises in numpy; the
embedded `zipWith` is only used at matching lengths). -/
def addValue (s : Option (List ℚ)) (arr : List ℚ) : Option (List ℚ) :=
  match s with
  | none => some arr
  | some v => some (List.zipWith (· + ·) v arr)

namespace RMS

/-- Embeds `RMS.update` (src/src/metrics/rms.py lines 10-19): build the
`[L, B]` array of per-sample means of squared values over the last two
axes, `np.sum(..., axis=1)` it into a per-layer batch sum, add into
`value`, then the base update increments `count`.

The `count` increment is modelled from the spec: the base `Metric.update`
(src/src/metrics/base.py, not under src/) increments `count` by the
batch's sample count. -/
def update (batchSize : ℕ) (s : MetricState) (out : Output) :
    MetricState × Output :=
  ({ value := addValue s.value
        ((out.layer_activations.map fun a => a.map matMeanSq).map List.sum)
     count := s.count + batchSize }, out)

/-- The radicand array of `RMS.compute` (src/src/metrics/rms.py lines
21-22): `self.value / self.count`, elementwise.  `RMS.compute` itself is
`np.sqrt` of this; the square root lives in ℝ, so in the statements
`compute` appears as `Real.sqrt` mapped over `computeVal`. -/
def computeVal (s : MetricState) : List ℚ :=
  match s.value with
  | none => []
  | some v => v.map fun q => q / (s.count : ℚ)

end RMS

/-- Embeds `scipy.stats.kurtosis(v, axis=-1, fisher=False)` on one hidden-width
vector: the population (non-excess) kurtosis `m4 / m2 ^ 2` with `mk` the
k-th central moment.  (scipy yields `nan` when `m2 = 0`; here `x / 0 = 0`.) -/
def kurt (v : Vec) : ℚ :=
  let μ := vecMean v
  let m2 := vecMean (v.map fun x => (x - μ) ^ 2)
  let m4 := vecMean (v.map fun x => (x - μ) ^ 4)
  m4 / m2 ^ 2

/-- One layer's summand in `Kurtosis.update` (src/src/metrics/kurtosis.py
lines 13-16): kurtosis along the hidden-width axis, `.mean(axis=-1)` over
positions, `.sum()` over the batch. -/
def layerKurtosis (a : Tensor3) : ℚ :=
  (a.map fun m => vecMean (m.map kurt)).sum

namespace Kurtosis

/-- Embeds `Kurtosis.update` (src/src/metrics/kurtosis.py lines 11-17);
the `count` increment is modelled from the spec as in `RMS.update`. -/
def update (batchSize : ℕ) (s : MetricState) (out : Output) :
    MetricState × Output :=
  ({ value := addValue s.value (out.layer_activations.map layerKurtosis)
     count := s.count + batchSize }, out)

end Kurtosis

/-- Embeds `activations.shape[-1]` of a `[B, N, H]` tensor: the hidden width. -/
def hiddenWidth (a : Tensor3) : ℕ := ((a.getD 0 []).getD 0 []).length

/-- Embeds `v @ r` for a hidden-width vector and an `H × H` matrix:
entry `k` is `Σ_h v h * r h k`. -/
def vecMatMul (v : Vec) (r : Mat) : Vec :=
  r.transpose.map fun col => (List.zipWith (· * ·) v col).sum

/-- Embeds `activation @ rotation` for a `[B, N, H]` activation tensor and an
`H × H` rotation: batched matrix multiplication over the last axis.  This
is the product `activation @= rotation` computes; see
`RotatedKurtosis.update` for why its value is discarded. -/
def tensorMatMul (a : Tensor3) (r : Mat) : Tensor3 :=
  a.map fun m => m.map fun v => vecMatMul v r

/-- The `RotatedKurtosis` state (src/src/metrics/kurtosis.py lines 21-23):
the inherited `value`/`count` plus `self.rotations`, `None` until the
first `update`. -/
structure RotatedKurtosisState where
  value : Option (List ℚ)
  count : ℕ
  rotations : Option (List Mat)
  deriving DecidableEq

namespace RotatedKurtosis

/-- Embeds `RotatedKurtosis.update` (src/src/metrics/kurtosis.py lines
25-34).  `gen i h` models `torch.linalg.qr(torch.randn(h, h))[0]` for the
i-th layer: the fresh random orthogonal matrix the code draws for that
layer on the first call.  On the first call the rotations are generated,
one per layer, from each activation's hidden width; afterwards the stored
ones are used.  The statement `activation @= rotation` does not mutate
the shared output: `torch.Tensor` defines no `__imatmul__`, so Python
falls back to `activation = activation @ rotation`, which computes the
product (`tensorMatMul`), rebinds the loop-local name and discards the
result, leaving `model_output.layer_activations` untouched.  The
inherited `Kurtosis.update` therefore runs on the unrotated output. -/
def update (gen : ℕ → ℕ → Mat) (batchSize : ℕ) (s : RotatedKurtosisState)
    (out : Output) : RotatedKurtosisState × Output :=
  let rots :=
    match s.rotations with
    | none => out.layer_activations.enum.map fun p => gen p.1 (hiddenWidth p.2)
    | some r => r
  let s2 := Kurtosis.update batchSize { value := s.value, count := s.count } out
  ({ value := s2.1.value, count := s2.1.count, rotations := some rots }, out)

end RotatedKurtosis

/-- The `Distribution` metric's `value` is a per-layer hidden-width
vector rather than a scalar (`none` while still the initial scalar zero). -/
structure DistributionState where
  value : Option (List Vec)
  count : ℕ
  deriving DecidableEq

/-- numpy `self.value += arr` for the per-layer-vector `Distribution`
state. -/
def addValueVec (s : Option (List Vec)) (arr : List Vec) : Option (List Vec) :=
  match s with
  | none => some arr
  | some v => some (List.zipWith (fun a b => List.zipWith (· + ·) a b) v arr)

/-- Embeds `torch.where(x <= 0, 0, x)` on one hidden-width vector. -/
def clipRow (v : Vec) : Vec := v.map fun x => if x ≤ 0 then 0 else x

/-- Embeds `.mean(axis=-2)` of a `[N, H]` batch element: per-column mean. -/
def meanAxisNeg2 (m : Mat) : Vec := m.transpose.map vecMean

/-- Embeds `.sum(-2)` of a `[B, H]` array: elementwise sum of the rows. -/
def sumVecs : List Vec → Vec
  | [] => []
  | [v] => v
  | v :: vs => List.zipWith (· + ·) v (sumVecs vs)

namespace Distribution

/-- Embeds `Distribution.process` (src/src/metrics/distribution.py lines
19-26): sort each hidden-width vector ascending; if any entry of the
sorted tensor is non-positive, clip the non-positive entries to zero;
divide each vector by its own sum.  (When a vector has no positive entry
its post-clip sum is 0; torch then divides by zero, here `x / 0 = 0`.) -/
def process (t : Tensor3) : Tensor3 :=
  let sorted := t.map fun m => m.map fun v => v.mergeSort (· ≤ ·)
  let s :=
    if sorted.all fun m => m.all fun v => v.all fun x => 0 < x then sorted
    else sorted.map fun m => m.map clipRow
  s.map fun m => m.map fun v => v.map fun x => x / v.sum

/-- Embeds `Distribution.update` (src/src/metrics/distribution.py lines
13-17): per layer, `process` the activations, mean over positions, sum
over the batch, add the resulting `[L, H]` array into `value`; the
`count` increment is modelled from the spec as in `RMS.update`. -/
def update (batchSize : ℕ) (s : DistributionState) (out : Output) :
    DistributionState × Output :=
  ({ value := addValueVec s.value
        (out.layer_activations.map fun a => sumVecs ((process a).map meanAxisNeg2))
     count := s.count + batchSize }, out)

end Distribution

/-! ### Helper definitions and lemmas for the adapter proofs -/

/-- The successive outputs of a run of consecutive blocks: the value the
loops append once per block. -/
def blockOuts (blocks : List (ResNetBlock α)) (x : α) : List α :=
  match blocks with
  | [] => []
  | b :: bs => b.run x :: blockOuts bs (b.run x)

/-- The running activation after a run of consecutive blocks. -/
def blockLast (blocks : List (ResNetBlock α)) (x : α) : α :=
  match blocks with
  | [] => x
  | b :: bs => blockLast bs (b.run x)

/-- Total number of blocks in a torso. -/
def torsoSize (torso : List (ResNetGroup α)) : ℕ :=
  (torso.map List.length).sum

theorem blockOuts_length (bs : List (ResNetBlock α)) (x : α) :
    (blockOuts bs x).length = bs.length := by
  induction bs generalizing x with
  | nil => rfl
  | cons b bs ih => simp [blockOuts, ih]

theorem RLMIC_runBlocks_eq (bs : List (ResNetBlock α)) (x : α)
    (outs preds : List α) :
    ReducedLengthModelForImageClassification.runBlocks bs x outs preds
      = (blockLast bs x, outs ++ blockOuts bs x, preds ++ blockOuts bs x) := by
  induction bs generalizing x outs preds with
  | nil => simp [ReducedLengthModelForImageClassification.runBlocks, blockOuts,
      blockLast]
  | cons b bs ih =>
    simp [ReducedLengthModelForImageClassification.runBlocks, blockOuts,
      blockLast, ih]

theorem VLR_runBlocks_eq (pool : α → α) (bs : List (ResNetBlock α)) (x : α)
    (outs preds : List α) :
    VariableLengthResNetForImageClassification.runBlocks pool bs x outs preds
      = (blockLast bs x, outs ++ (blockOuts bs x).map pool,
          preds ++ blockOuts bs x) := by
  induction bs generalizing x outs preds with
  | nil => simp [VariableLengthResNetForImageClassification.runBlocks, blockOuts,
      blockLast]
  | cons b bs ih =>
    simp [VariableLengthResNetForImageClassification.runBlocks, blockOuts,
      blockLast, ih]

theorem RLMIC_runTorso_lengths (torso : List (ResNetGroup α)) (x : α)
    (outs preds : List α) :
    ((ReducedLengthModelForImageClassification.runTorso torso x outs preds).2.1).length
        = outs.length + torsoSize torso
      ∧ ((ReducedLengthModelForImageClassification.runTorso torso x outs preds).2.2).length
        = preds.length + torsoSize torso := by
  induction torso generalizing x outs preds with
  | nil => simp [ReducedLengthModelForImageClassification.runTorso, torsoSize]
  | cons g gs ih =>
    have hlen : ∀ preds1 : List α, preds1.length = preds.length →
        ((ReducedLengthModelForImageClassification.runTorso gs (blockLast g x)
            (outs ++ blockOuts g x) (preds1 ++ blockOuts g x)).2.1).length
          = outs.length + torsoSize (g :: gs)
        ∧ ((ReducedLengthModelForImageClassification.runTorso gs (blockLast g x)
            (outs ++ blockOuts g x) (preds1 ++ blockOuts g x)).2.2).length
          = preds.length + torsoSize (g :: gs) := by
      intro preds1 h1
      obtain ⟨ha, hb⟩ := ih (blockLast g x) (outs ++ blockOuts g x)
        (preds1 ++ blockOuts g x)
      constructor
      · rw [ha]; simp [torsoSize, blockOuts_length]; ring
      · rw [hb]; simp [torsoSize, blockOuts_length, h1]; ring
    cases g with
    | nil =>
      simp only [ReducedLengthModelForImageClassification.runTorso,
        List.head?_nil, RLMIC_runBlocks_eq]
      exact hlen preds rfl
    | cons b rest =>
      cases hd : b.downsample with
      | none =>
        simp only [ReducedLengthModelForImageClassification.runTorso,
          List.head?_cons, hd, RLMIC_runBlocks_eq]
        exact hlen preds rfl
      | some d =>
        simp only [ReducedLengthModelForImageClassification.runTorso,
          List.head?_cons, hd, RLMIC_runBlocks_eq]
        exact hlen (preds.map d) (List.length_map preds d)

theorem RLMIC_layers_length (m : ReducedLengthModelForImageClassification.Model α) :
    (ReducedLengthModelForImageClassification.layers m).length = torsoSize m.torso := by
  simp only [ReducedLengthModelForImageClassification.layers, List.length_flatMap]
  have h1 : List.map (List.length ∘ fun p : ℕ × ResNetGroup α =>
        (List.range p.2.length).map fun j => (p.1, j)) m.torso.enum
      = List.map List.length (List.map Prod.snd m.torso.enum) := by
    rw [List.map_map]
    simp [Function.comp]
  rw [h1, List.enum_map_snd]
  rfl

theorem VLR_runTorso_lengths (pool : α → α) (torso : List (ResNetGroup α))
    (x : α) (outs preds : List α) :
    ((VariableLengthResNetForImageClassification.runTorso pool torso x outs preds).2.1).length
        = outs.length + torsoSize torso
      ∧ ((VariableLengthResNetForImageClassification.runTorso pool torso x outs preds).2.2).length
        = preds.length + torsoSize torso := by
  induction torso generalizing x outs preds with
  | nil => simp [VariableLengthResNetForImageClassification.runTorso, torsoSize]
  | cons g gs ih =>
    have hlen : ∀ preds1 : List α, preds1.length = preds.length →
        ((VariableLengthResNetForImageClassification.runTorso pool gs (blockLast g x)
            (outs ++ (blockOuts g x).map pool) (preds1 ++ blockOuts g x)).2.1).length
          = outs.length + torsoSize (g :: gs)
        ∧ ((VariableLengthResNetForImageClassification.runTorso pool gs (blockLast g x)
            (outs ++ (blockOuts g x).map pool) (preds1 ++ blockOuts g x)).2.2).length
          = preds.length + torsoSize (g :: gs) := by
      intro preds1 h1
      obtain ⟨ha, hb⟩ := ih (blockLast g x) (outs ++ (blockOuts g x).map pool)
        (preds1 ++ blockOuts g x)
      constructor
      · rw [ha]; simp [torsoSize, blockOuts_length]; ring
      · rw [hb]; simp [torsoSize, blockOuts_length, h1]; ring
    cases g with
    | nil =>
      simp only [VariableLengthResNetForImageClassification.runTorso,
        List.head?_nil, VLR_runBlocks_eq]
      exact hlen preds rfl
    | cons b rest =>
      cases hd : b.downsample with
      | none =>
        simp only [VariableLengthResNetForImageClassification.runTorso,
          List.head?_cons, hd, VLR_runBlocks_eq]
        exact hlen preds rfl
      | some d =>
        simp only [VariableLengthResNetForImageClassification.runTorso,
          List.head?_cons, hd, VLR_runBlocks_eq]
        exact hlen (preds.map d) (List.length_map preds d)

theorem VLR_layers_length (m : VariableLengthResNetForImageClassification.Model α) :
    (VariableLengthResNetForImageClassification.layers m).length = torsoSize m.torso := by
  simp only [VariableLengthResNetForImageClassification.layers, List.length_flatMap]
  have h1 : List.map (List.length ∘ fun p : ℕ × ResNetGroup α =>
        (List.range p.2.length).map fun j => (p.1, j)) m.torso.enum
      = List.map List.length (List.map Prod.snd m.torso.enum) := by
    rw [List.map_map]
    simp [Function.comp]
  rw [h1, List.enum_map_snd]
  rfl

theorem seq_hidden_states_length (m : ReducedLengthModelForSequenceClassification.Model ι α)
    (x : ι) :
    (ReducedLengthModelForSequenceClassification.hidden_states m x).length
      = m.torsoBlocks.length + 1 := by
  simp [ReducedLengthModelForSequenceClassification.hidden_states,
    List.length_scanl]

/-- C1: for every adapter instance (sequence-classification from model.py,
and both image-classification adapters), the length of the `layers`
property equals the length of the `layer_activations` list returned by
`forward` on any input batch. -/
theorem claim_C1 {ι α β γ : Type} :
    (∀ (m : ReducedLengthModelForSequenceClassification.Model ι α) (x : ι),
      (ReducedLengthModelForSequenceClassification.layers m).length
        = (ReducedLengthModelForSequenceClassification.forward m x).layer_activations.length)
    ∧ (∀ (m : ReducedLengthModelForImageClassification.Model β) (x : β),
      (ReducedLengthModelForImageClassification.layers m).length
        = (ReducedLengthModelForImageClassification.forward m x).layer_activations.length)
    ∧ (∀ (m : VariableLengthResNetForImageClassification.Model γ) (x : γ),
      (VariableLengthResNetForImageClassification.layers m).length
        = (VariableLengthResNetForImageClassification.forward m x).layer_activations.length) := by
  refine ⟨fun m x => ?_, fun m x => ?_, fun m x => ?_⟩
  · simp [ReducedLengthModelForSequenceClassification.layers,
      ReducedLengthModelForSequenceClassification.forward,
      seq_hidden_states_length]
  · have h := (RLMIC_runTorso_lengths m.torso (m.feature_extractor x) [] []).1
    simp [ReducedLengthModelForImageClassification.forward, h,
      RLMIC_layers_length]
  · have h := (VLR_runTorso_lengths m.pool m.torso (m.feature_extractor x) [] []).1
    simp [VariableLengthResNetForImageClassification.forward, h,
      VLR_layers_length]

/-- C3: the sequence-classification forward requests all hidden states of
the underlying model (input embedding plus one per encoder block, so
`len(torso) + 1` activation tensors) and, when a head exists, applies it
independently to every hidden state. -/
theorem claim_C3 {ι α : Type}
    (m : ReducedLengthModelForSequenceClassification.Model ι α) (x : ι) :
    (ReducedLengthModelForSequenceClassification.forward m x).layer_activations
        = ReducedLengthModelForSequenceClassification.hidden_states m x
    ∧ (ReducedLengthModelForSequenceClassification.forward m x).layer_activations.length
        = m.torsoBlocks.length + 1
    ∧ ∀ f, m.head = some f →
        (ReducedLengthModelForSequenceClassification.forward m x).layer_predictions
          = some ((ReducedLengthModelForSequenceClassification.hidden_states m x).map f) := by
  refine ⟨rfl, ?_, fun f hf => ?_⟩
  · simp [ReducedLengthModelForSequenceClassification.forward,
      seq_hidden_states_length]
  · simp [ReducedLengthModelForSequenceClassification.forward, hf]

/-- Witness for C3 at a concrete one-block model with a head. -/
theorem claim_C3_witness :
    ((⟨fun n : ℕ => (n : ℚ), [fun q => q + 1],
        some fun q => q * 2⟩ : ReducedLengthModelForSequenceClassification.Model ℕ ℚ).head
        = some fun q => q * 2)
    ∧ (ReducedLengthModelForSequenceClassification.forward
        (⟨fun n : ℕ => (n : ℚ), [fun q => q + 1],
          some fun q => q * 2⟩ : ReducedLengthModelForSequenceClassification.Model ℕ ℚ)
        3).layer_predictions
      = some ((ReducedLengthModelForSequenceClassification.hidden_states
          (⟨fun n : ℕ => (n : ℚ), [fun q => q + 1],
            some fun q => q * 2⟩ : ReducedLengthModelForSequenceClassification.Model ℕ ℚ)
          3).map fun q => q * 2) :=
  ⟨rfl, (claim_C3 _ 3).2.2 _ rfl⟩

/-- C9: `layer_predictions` is `none` exactly when the adapter exposes no
head; when present it has the same length as `layer_activations` and its
i-th entry is the head applied to the i-th layer's activation (sequence
adapter) respectively to the i-th prediction candidate accumulated by the
torso walk (image.py adapter, whose head always exists: the prediction
list is exactly the candidate list mapped through the head). -/
theorem claim_C9 {ι α β : Type} :
    (∀ (m : ReducedLengthModelForSequenceClassification.Model ι α) (x : ι),
      ((ReducedLengthModelForSequenceClassification.forward m x).layer_predictions = none
          ↔ m.head = none)
      ∧ ∀ f, m.head = some f →
          (ReducedLengthModelForSequenceClassification.forward m x).layer_predictions
            = some (((ReducedLengthModelForSequenceClassification.forward m x).layer_activations).map f))
    ∧ (∀ (m : VariableLengthResNetForImageClassification.Model β) (y : β),
        (VariableLengthResNetForImageClassification.forward m y).layer_predictions
          = some (((VariableLengthResNetForImageClassification.runTorso m.pool m.torso
              (m.feature_extractor y) [] []).2.2).map m.head)
        ∧ (((VariableLengthResNetForImageClassification.runTorso m.pool m.torso
              (m.feature_extractor y) [] []).2.2).map m.head).length
            = (VariableLengthResNetForImageClassification.forward m y).layer_activations.length) := by
  constructor
  · intro m x
    constructor
    · simp [ReducedLengthModelForSequenceClassification.forward,
        Option.map_eq_none']
    · intro f hf
      simp [ReducedLengthModelForSequenceClassification.forward, hf]
  · intro m y
    obtain ⟨h1, h2⟩ := VLR_runTorso_lengths m.pool m.torso (m.feature_extractor y) [] []
    refine ⟨rfl, ?_⟩
    simp only [VariableLengthResNetForImageClassification.forward]
    rw [List.length_map, h1, h2]

/-- Witness for C9: a one-block sequence model with a head, and a
one-block ResNet adapter. -/
theorem claim_C9_witness :
    ((ReducedLengthModelForSequenceClassification.forward
        (⟨fun n : ℕ => (n : ℚ), [fun q => q + 1],
          some fun q => q * 2⟩ : ReducedLengthModelForSequenceClassification.Model ℕ ℚ)
        3).layer_predictions
      = some (((ReducedLengthModelForSequenceClassification.forward
          (⟨fun n : ℕ => (n : ℚ), [fun q => q + 1],
            some fun q => q * 2⟩ : ReducedLengthModelForSequenceClassification.Model ℕ ℚ)
          3).layer_activations).map fun q => q * 2))
    ∧ ((VariableLengthResNetForImageClassification.forward
        (⟨id, [[⟨fun q => q + 1, some fun q => q * 2⟩]], fun q => q * 3,
          fun q => q + 10⟩ : VariableLengthResNetForImageClassification.Model ℚ)
        0).layer_predictions
      = some (((VariableLengthResNetForImageClassification.runTorso (fun q => q + 10)
          [[⟨fun q => q + 1, some fun q => q * 2⟩]] ((0 : ℚ)) [] []).2.2).map fun q => q * 3))
    ∧ (((VariableLengthResNetForImageClassification.runTorso (fun q => q + 10)
          [[⟨fun q => q + 1, some fun q => q * 2⟩]] ((0 : ℚ)) [] []).2.2).map fun q => q * 3).length
      = (VariableLengthResNetForImageClassification.forward
          (⟨id, [[⟨fun q => q + 1, some fun q => q * 2⟩]], fun q => q * 3,
            fun q => q + 10⟩ : VariableLengthResNetForImageClassification.Model ℚ)
          0).layer_activations.length :=
  ⟨((@claim_C9 ℕ ℚ ℚ).1 ⟨fun n : ℕ => (n : ℚ), [fun q => q + 1],
      some fun q => q * 2⟩ 3).2 _ rfl,
    ((@claim_C9 ℕ ℚ ℚ).2 ⟨id, [[⟨fun q => q + 1, some fun q => q * 2⟩]],
      fun q => q * 3, fun q => q + 10⟩ 0).1,
    ((@claim_C9 ℕ ℚ ℚ).2 ⟨id, [[⟨fun q => q + 1, some fun q => q * 2⟩]],
      fun q => q * 3, fun q => q + 10⟩ 0).2⟩

/-- C2: in the image-classification forward, for each group in order: if
the group's first block has a downsample projection it is applied to every
previously accumulated prediction candidate before the group's blocks run;
if the first block has none, the prediction-candidate list enters the
group's blocks untouched.  Stated for both image adapters (model.py and
image.py); `blockOuts`/`blockLast` are what the group's block loop appends
and the activation it leaves behind. -/
theorem claim_C2 {α β : Type} :
    (∀ (b : ResNetBlock α) (rest : List (ResNetBlock α))
        (gs : List (ResNetGroup α)) (x : α) (outs preds : List α),
      (∀ d, b.downsample = some d →
        ReducedLengthModelForImageClassification.runTorso ((b :: rest) :: gs) x outs preds
          = ReducedLengthModelForImageClassification.runTorso gs
              (blockLast (b :: rest) x) (outs ++ blockOuts (b :: rest) x)
              (preds.map d ++ blockOuts (b :: rest) x))
      ∧ (b.downsample = none →
        ReducedLengthModelForImageClassification.runTorso ((b :: rest) :: gs) x outs preds
          = ReducedLengthModelForImageClassification.runTorso gs
              (blockLast (b :: rest) x) (outs ++ blockOuts (b :: rest) x)
              (preds ++ blockOuts (b :: rest) x)))
    ∧ (∀ (pool : β → β) (b : ResNetBlock β) (rest : List (ResNetBlock β))
        (gs : List (ResNetGroup β)) (x : β) (outs preds : List β),
      (∀ d, b.downsample = some d →
        VariableLengthResNetForImageClassification.runTorso pool ((b :: rest) :: gs) x outs preds
          = VariableLengthResNetForImageClassification.runTorso pool gs
              (blockLast (b :: rest) x)
              (outs ++ (blockOuts (b :: rest) x).map pool)
              (preds.map d ++ blockOuts (b :: rest) x))
      ∧ (b.downsample = none →
        VariableLengthResNetForImageClassification.runTorso pool ((b :: rest) :: gs) x outs preds
          = VariableLengthResNetForImageClassification.runTorso pool gs
              (blockLast (b :: rest) x)
              (outs ++ (blockOuts (b :: rest) x).map pool)
              (preds ++ blockOuts (b :: rest) x))) := by
  constructor
  · intro b rest gs x outs preds
    constructor
    · intro d hd
      simp only [ReducedLengthModelForImageClassification.runTorso,
        List.head?_cons, hd, RLMIC_runBlocks_eq]
    · intro hd
      simp only [ReducedLengthModelForImageClassification.runTorso,
        List.head?_cons, hd, RLMIC_runBlocks_eq]
  · intro pool b rest gs x outs preds
    constructor
    · intro d hd
      simp only [VariableLengthResNetForImageClassification.runTorso,
        List.head?_cons, hd, VLR_runBlocks_eq]
    · intro hd
      simp only [VariableLengthResNetForImageClassification.runTorso,
        List.head?_cons, hd, VLR_runBlocks_eq]

/-- Witness for C2: a concrete one-block group with a downsample (doubling)
realigns the accumulated prediction `5` to `10`, and one without leaves it
at `5`; checked on both adapters. -/
theorem claim_C2_witness :
    (ReducedLengthModelForImageClassification.runTorso
        [[⟨fun q => q + 1, some fun q => q * 2⟩]] (0 : ℚ) [] [5]
      = ReducedLengthModelForImageClassification.runTorso []
          (blockLast [⟨fun q => q + 1, some fun q => q * 2⟩] 0)
          ([] ++ blockOuts [⟨fun q => q + 1, some fun q => q * 2⟩] 0)
          ([5].map (fun q => q * 2) ++ blockOuts [⟨fun q => q + 1, some fun q => q * 2⟩] 0))
    ∧ (ReducedLengthModelForImageClassification.runTorso
        [[⟨fun q => q + 1, none⟩]] (0 : ℚ) [] [5]
      = ReducedLengthModelForImageClassification.runTorso []
          (blockLast [⟨fun q => q + 1, none⟩] 0)
          ([] ++ blockOuts [⟨fun q => q + 1, none⟩] 0)
          ([(5 : ℚ)] ++ blockOuts [⟨fun q => q + 1, none⟩] 0))
    ∧ (VariableLengthResNetForImageClassification.runTorso (fun q => q + 10)
        [[⟨fun q => q + 1, some fun q => q * 2⟩]] (0 : ℚ) [] [5]
      = VariableLengthResNetForImageClassification.runTorso (fun q => q + 10) []
          (blockLast [⟨fun q => q + 1, some fun q => q * 2⟩] 0)
          ([] ++ (blockOuts [⟨fun q => q + 1, some fun q => q * 2⟩] 0).map fun q => q + 10)
          ([5].map (fun q => q * 2) ++ blockOuts [⟨fun q => q + 1, some fun q => q * 2⟩] 0)) :=
  ⟨((@claim_C2 ℚ ℚ).1 ⟨fun q => q + 1, some fun q => q * 2⟩ [] [] 0 [] [5]).1 _ rfl,
    ((@claim_C2 ℚ ℚ).1 ⟨fun q => q + 1, none⟩ [] [] 0 [] [5]).2 rfl,
    ((@claim_C2 ℚ ℚ).2 (fun q => q + 10) ⟨fun q => q + 1, some fun q => q * 2⟩
      [] [] 0 [] [5]).1 _ rfl⟩

theorem VLR_runTorso_eq_RLMIC (pool : α → α) (torso : List (ResNetGroup α))
    (x : α) (outs preds : List α) :
    VariableLengthResNetForImageClassification.runTorso pool torso x
        (outs.map pool) preds
      = ((ReducedLengthModelForImageClassification.runTorso torso x outs preds).1,
          ((ReducedLengthModelForImageClassification.runTorso torso x outs preds).2.1).map pool,
          (ReducedLengthModelForImageClassification.runTorso torso x outs preds).2.2) := by
  induction torso generalizing x outs preds with
  | nil =>
    simp [VariableLengthResNetForImageClassification.runTorso,
      ReducedLengthModelForImageClassification.runTorso]
  | cons g gs ih =>
    have step : ∀ preds1 : List α,
        VariableLengthResNetForImageClassification.runTorso pool gs
            (blockLast g x) (outs.map pool ++ (blockOuts g x).map pool)
            (preds1 ++ blockOuts g x)
          = ((ReducedLengthModelForImageClassification.runTorso gs (blockLast g x)
                (outs ++ blockOuts g x) (preds1 ++ blockOuts g x)).1,
              ((ReducedLengthModelForImageClassification.runTorso gs (blockLast g x)
                (outs ++ blockOuts g x) (preds1 ++ blockOuts g x)).2.1).map pool,
              (ReducedLengthModelForImageClassification.runTorso gs (blockLast g x)
                (outs ++ blockOuts g x) (preds1 ++ blockOuts g x)).2.2) := by
      intro preds1
      rw [← List.map_append]
      exact ih (blockLast g x) (outs ++ blockOuts g x) (preds1 ++ blockOuts g x)
    cases g with
    | nil =>
      simp only [VariableLengthResNetForImageClassification.runTorso,
        ReducedLengthModelForImageClassification.runTorso, List.head?_nil,
        VLR_runBlocks_eq, RLMIC_runBlocks_eq]
      exact step preds
    | cons b rest =>
      cases hd : b.downsample with
      | none =>
        simp only [VariableLengthResNetForImageClassification.runTorso,
          ReducedLengthModelForImageClassification.runTorso, List.head?_cons, hd,
          VLR_runBlocks_eq, RLMIC_runBlocks_eq]
        exact step preds
      | some d =>
        simp only [VariableLengthResNetForImageClassification.runTorso,
          ReducedLengthModelForImageClassification.runTorso, List.head?_cons, hd,
          VLR_runBlocks_eq, RLMIC_runBlocks_eq]
        exact step (preds.map d)

/-- C10: built from the same underlying ResNet (same stem, groups and
head), the two image adapters return identical `layers` and identical
`layer_predictions`, and differ only in `layer_activations`: the image.py
adapter records the spatially pooled activation where model.py records the
raw one. -/
theorem claim_C10 {α : Type} (fe : α → α) (torso : List (ResNetGroup α))
    (head : α → α) (pool : α → α) (x : α) :
    VariableLengthResNetForImageClassification.layers ⟨fe, torso, head, pool⟩
        = ReducedLengthModelForImageClassification.layers ⟨fe, torso, head⟩
    ∧ (VariableLengthResNetForImageClassification.forward ⟨fe, torso, head, pool⟩ x).layer_predictions
        = (ReducedLengthModelForImageClassification.forward ⟨fe, torso, head⟩ x).layer_predictions
    ∧ (VariableLengthResNetForImageClassification.forward ⟨fe, torso, head, pool⟩ x).layer_activations
        = ((ReducedLengthModelForImageClassification.forward ⟨fe, torso, head⟩ x).layer_activations).map pool := by
  have h := VLR_runTorso_eq_RLMIC pool torso (fe x) [] []
  simp only [List.map_nil] at h
  refine ⟨rfl, ?_, ?_⟩
  · simp only [VariableLengthResNetForImageClassification.forward,
      ReducedLengthModelForImageClassification.forward, h]
  · simp only [VariableLengthResNetForImageClassification.forward,
      ReducedLengthModelForImageClassification.forward, h]

/-! ### Helper lemmas for the metric proofs -/

theorem list_sum_map_div (v : List ℚ) (c : ℚ) :
    (v.map fun x => x / c).sum = v.sum / c := by
  induction v with
  | nil => simp
  | cons a t ih => simp [ih, add_div]

theorem list_sum_pos_of_mem {v : List ℚ} (h0 : ∀ y ∈ v, 0 ≤ y) {x : ℚ}
    (hx : x ∈ v) (hxp : 0 < x) : 0 < v.sum := by
  rw [(List.perm_cons_erase hx).sum_eq, List.sum_cons]
  have : 0 ≤ (v.erase x).sum :=
    List.sum_nonneg fun y hy => h0 y (List.erase_subset x v hy)
  linarith

/-- Normalizing a nonnegative vector with a positive entry by its own sum
yields a nonnegative vector summing to 1. -/
theorem normalized_row (v : Vec) (h0 : ∀ y ∈ v, 0 ≤ y) (hp : ∃ x ∈ v, 0 < x) :
    (∀ y ∈ v.map fun x => x / v.sum, 0 ≤ y)
    ∧ (v.map fun x => x / v.sum).sum = 1 := by
  obtain ⟨x, hx, hxp⟩ := hp
  have hs : 0 < v.sum := list_sum_pos_of_mem h0 hx hxp
  constructor
  · intro y hy
    obtain ⟨z, hz, rfl⟩ := List.mem_map.mp hy
    exact div_nonneg (h0 z hz) hs.le
  · rw [list_sum_map_div, div_self hs.ne']

theorem clipRow_nonneg {v : Vec} : ∀ y ∈ clipRow v, 0 ≤ y := by
  intro y hy
  obtain ⟨z, _, rfl⟩ := List.mem_map.mp hy
  by_cases h : z ≤ 0
  · simp [h]
  · simp only [h, if_false]
    linarith

theorem clipRow_pos_mem {v : Vec} {x : ℚ} (hx : x ∈ v) (hxp : 0 < x) :
    ∃ y ∈ clipRow v, 0 < y := by
  refine ⟨if x ≤ 0 then 0 else x, List.mem_map_of_mem _ hx, ?_⟩
  simp [not_le.mpr hxp, hxp]

/-- C4 (amended): when every hidden-width vector of the activation tensor
has at least one positive entry, every vector produced by
`Distribution.process` has all entries nonnegative and sums to 1 (the
clipped sum in the denominator is then positive).  Without a positive
entry the clipped sum is zero and the normalization divides by zero — see
the counterexample. -/
theorem claim_C4 (t : Tensor3) (ht : ∀ m ∈ t, ∀ v ∈ m, ∃ x ∈ v, 0 < x) :
    ∀ m ∈ Distribution.process t, ∀ w ∈ m,
      (∀ y ∈ w, 0 ≤ y) ∧ w.sum = 1 := by
  intro mp hmp w hw
  simp only [Distribution.process] at hmp
  by_cases hall :
      (t.map fun m => m.map fun v => v.mergeSort (· ≤ ·)).all
        fun m => m.all fun v => v.all fun x => 0 < x
  · rw [if_pos hall] at hmp
    obtain ⟨m1, hm1, rfl⟩ := List.mem_map.mp hmp
    obtain ⟨v1, hv1, rfl⟩ := List.mem_map.mp hw
    obtain ⟨m0, hm0, rfl⟩ := List.mem_map.mp hm1
    obtain ⟨v0, hv0, rfl⟩ := List.mem_map.mp hv1
    have hpos : ∀ y ∈ v0.mergeSort (· ≤ ·), 0 < y := by
      have h1 := (List.all_eq_true.mp hall) _
        (List.mem_map_of_mem (fun m => m.map fun v => v.mergeSort (· ≤ ·)) hm0)
      have h2 := (List.all_eq_true.mp h1) _
        (List.mem_map_of_mem (fun v => v.mergeSort (· ≤ ·)) hv0)
      intro y hy
      exact decide_eq_true_eq.mp ((List.all_eq_true.mp h2) y hy)
    obtain ⟨x, hx, hxp⟩ := ht m0 hm0 v0 hv0
    exact normalized_row _ (fun y hy => (hpos y hy).le)
      ⟨x, List.mem_mergeSort.mpr hx, hxp⟩
  · rw [if_neg hall] at hmp
    obtain ⟨m1, hm1, rfl⟩ := List.mem_map.mp hmp
    obtain ⟨v1, hv1, rfl⟩ := List.mem_map.mp hw
    obtain ⟨m0, hm0, hm0e⟩ := List.mem_map.mp hm1
    obtain ⟨m00, hm00, rfl⟩ := List.mem_map.mp hm0
    subst hm0e
    obtain ⟨v0, hv0, rfl⟩ := List.mem_map.mp hv1
    obtain ⟨v00, hv00, rfl⟩ := List.mem_map.mp hv0
    obtain ⟨x, hx, hxp⟩ := ht m00 hm00 v00 hv00
    exact normalized_row _ clipRow_nonneg
      (clipRow_pos_mem (List.mem_mergeSort.mpr hx) hxp)

/-- Counterexample to C4 as stated: on the activation vector `[-1]` (no
positive entry) the sorted-and-clipped vector is `[0]`, its sum — the
normalization denominator — is zero, and the processed vector sums to 0,
not 1.  So the clipping does not guarantee a nonzero denominator. -/
theorem claim_C4_counterexample :
    ¬ ∀ m ∈ Distribution.process [[[(-1 : ℚ)]]], ∀ w ∈ m,
        (∀ y ∈ w, 0 ≤ y) ∧ w.sum = 1 := by
  with_unfolding_all decide

/-- Witness for C4 at the tensor `[[[-1, 2], [2, 3]]]`, each of whose
rows has a positive entry. -/
theorem claim_C4_witness :
    (∀ m ∈ [[[(-1 : ℚ), 2], [2, 3]]], ∀ v ∈ m, ∃ x ∈ v, 0 < x)
    ∧ ∀ m ∈ Distribution.process [[[(-1 : ℚ), 2], [2, 3]]], ∀ w ∈ m,
        (∀ y ∈ w, 0 ≤ y) ∧ w.sum = 1 :=
  ⟨by with_unfolding_all decide,
    claim_C4 [[[(-1 : ℚ), 2], [2, 3]]] (by with_unfolding_all decide)⟩

/-- C5: every metric's `update` only reads from the `NormalizedOutput` it
is given and returns it unchanged — including `RotatedKurtosis`, whose
`activation @= rotation` merely rebinds the loop-local name (torch
tensors define no `__imatmul__`, hence no in-place matmul), leaving the
shared `layer_activations` untouched — so multiple distinct metric
instances can consume the same output of a single `forward` call and
each observes the same layer activations. -/
theorem claim_C5 (gen : ℕ → ℕ → Mat) (B : ℕ) (s1 s2 : MetricState)
    (s3 : DistributionState) (s4 : RotatedKurtosisState) (out : Output) :
    (Kurtosis.update B s1 out).2 = out
    ∧ (RMS.update B s2 out).2 = out
    ∧ (Distribution.update B s3 out).2 = out
    ∧ (RotatedKurtosis.update gen B s4 out).2 = out :=
  ⟨rfl, rfl, rfl, rfl⟩

/-- C6: the per-layer rotation matrices of a `RotatedKurtosis` instance
are generated exactly once — on the first `update` call, one matrix per
layer from that layer's hidden width — and every later `update` call
keeps the stored matrices unchanged. -/
theorem claim_C6 (gen : ℕ → ℕ → Mat) (B : ℕ) (s : RotatedKurtosisState)
    (out : Output) :
    (s.rotations = none →
      (RotatedKurtosis.update gen B s out).1.rotations
        = some (out.layer_activations.enum.map fun p => gen p.1 (hiddenWidth p.2)))
    ∧ ∀ r, s.rotations = some r →
      (RotatedKurtosis.update gen B s out).1.rotations = some r := by
  constructor
  · intro h
    simp [RotatedKurtosis.update, h]
  · intro r h
    simp [RotatedKurtosis.update, h]

/-- Witness for C6: a fresh instance stores the generated swap matrix on
its first update; an instance already holding `[[1]]` keeps it. -/
theorem claim_C6_witness :
    ((⟨none, 0, none⟩ : RotatedKurtosisState).rotations = none)
    ∧ (RotatedKurtosis.update (fun _ _ => [[0, 1], [1, 0]]) 1 ⟨none, 0, none⟩
        ⟨[[[[(1 : ℚ), 2]]]], none⟩).1.rotations
      = some (([[[[(1 : ℚ), 2]]]] : List Tensor3).enum.map
          fun p => (fun _ _ => [[0, 1], [1, 0]] : ℕ → ℕ → Mat) p.1 (hiddenWidth p.2))
    ∧ (RotatedKurtosis.update (fun _ _ => [[0, 1], [1, 0]]) 1 ⟨none, 0, some [[[1]]]⟩
        ⟨[[[[(1 : ℚ), 2]]]], none⟩).1.rotations = some [[[1]]] :=
  ⟨rfl,
    (claim_C6 (fun _ _ => [[0, 1], [1, 0]]) 1 ⟨none, 0, none⟩
      ⟨[[[[(1 : ℚ), 2]]]], none⟩).1 rfl,
    (claim_C6 (fun _ _ => [[0, 1], [1, 0]]) 1 ⟨none, 0, some [[[1]]]⟩
      ⟨[[[[(1 : ℚ), 2]]]], none⟩).2 [[[1]]] rfl⟩

theorem matMeanSq_nonneg (m : Mat) : 0 ≤ matMeanSq m := by
  unfold matMeanSq
  refine div_nonneg ?_ ?_
  · refine List.sum_nonneg fun x hx => ?_
    obtain ⟨r, _, rfl⟩ := List.mem_map.mp hx
    exact List.sum_nonneg fun y hy => by
      obtain ⟨z, _, rfl⟩ := List.mem_map.mp hy
      positivity
  · positivity

theorem zipWith_add_nonneg {v arr : List ℚ} (hv : ∀ q ∈ v, 0 ≤ q)
    (ha : ∀ q ∈ arr, 0 ≤ q) : ∀ q ∈ List.zipWith (· + ·) v arr, 0 ≤ q := by
  induction v generalizing arr with
  | nil => simp
  | cons a t ih =>
    cases arr with
    | nil => simp
    | cons b u =>
      intro q hq
      rcases List.mem_cons.mp hq with h | h
      · subst h
        exact add_nonneg (hv a (by simp)) (ha b (by simp))
      · exact ih (fun q hq => hv q (by simp [hq])) (fun q hq => ha q (by simp [hq])) q h

/-- One batch's per-layer summand in `RMS.update` is nonnegative: a sum
over the batch of means of squares. -/
theorem rms_layer_sum_nonneg (a : Tensor3) : 0 ≤ ((a.map matMeanSq).sum) :=
  List.sum_nonneg fun q hq => by
    obtain ⟨m, _, rfl⟩ := List.mem_map.mp hq
    exact matMeanSq_nonneg m

theorem rms_update_value_nonneg (B : ℕ) (s : MetricState) (out : Output)
    (hs : ∀ q ∈ s.value.getD [], 0 ≤ q) :
    ∀ q ∈ ((RMS.update B s out).1.value.getD []), 0 ≤ q := by
  have harr : ∀ q ∈ (out.layer_activations.map fun a => a.map matMeanSq).map List.sum,
      0 ≤ q := by
    intro q hq
    obtain ⟨row, hrow, rfl⟩ := List.mem_map.mp hq
    obtain ⟨a, _, rfl⟩ := List.mem_map.mp hrow
    exact rms_layer_sum_nonneg a
  cases hv : s.value with
  | none =>
    simp only [RMS.update, addValue, hv, Option.getD_some]
    exact harr
  | some v =>
    have hv' : ∀ q ∈ v, 0 ≤ q := by
      intro q hq
      exact hs q (by simp [hv, hq])
    simp only [RMS.update, addValue, hv, Option.getD_some]
    exact zipWith_add_nonneg hv' harr

/-- The accumulator run the evaluation driver performs for `RMS`: fold
`update` over a list of (batch sample count, forward output) pairs,
starting from the freshly constructed state.  The initial state (scalar
zero `value`, zero `count`) is modelled from the spec, the base `Metric`
constructor not being under src/. -/
def runRMS (runs : List (ℕ × Output)) (s : MetricState) : MetricState :=
  runs.foldl (fun st p => (RMS.update p.1 st p.2).1) s

theorem runRMS_value_nonneg (runs : List (ℕ × Output)) (s : MetricState)
    (hs : ∀ q ∈ s.value.getD [], 0 ≤ q) :
    ∀ q ∈ (runRMS runs s).value.getD [], 0 ≤ q := by
  induction runs generalizing s with
  | nil => exact hs
  | cons p ps ih =>
    exact ih _ (rms_update_value_nonneg p.1 s p.2 hs)

/-- C7: `RMS.update` adds, per layer, the batch sum of the per-sample
means of squared values over the last two axes into `value` (and the
base update increments `count` by the batch sample count); `compute`
is the elementwise square root of `value / count`, so after any run of
updates from a fresh state every radicand is nonnegative and every
element of the computed output is nonnegative. -/
theorem claim_C7 :
    (∀ (B : ℕ) (s : MetricState) (out : Output),
      (RMS.update B s out).1.value
        = addValue s.value (out.layer_activations.map fun a => (a.map matMeanSq).sum)
      ∧ (RMS.update B s out).1.count = s.count + B)
    ∧ ∀ (runs : List (ℕ × Output)),
        ∀ q ∈ RMS.computeVal (runRMS runs ⟨none, 0⟩),
          0 ≤ q ∧ 0 ≤ Real.sqrt (q : ℝ) := by
  constructor
  · intro B s out
    refine ⟨?_, rfl⟩
    simp only [RMS.update, List.map_map]
    rfl
  · intro runs q hq
    have hval : ∀ q ∈ (runRMS runs ⟨none, 0⟩).value.getD [], 0 ≤ q :=
      runRMS_value_nonneg runs ⟨none, 0⟩ (by simp)
    refine ⟨?_, Real.sqrt_nonneg _⟩
    simp only [RMS.computeVal] at hq
    cases hv : (runRMS runs ⟨none, 0⟩).value with
    | none => simp [hv] at hq
    | some v =>
      rw [hv] at hq
      obtain ⟨z, hz, rfl⟩ := List.mem_map.mp hq
      have : 0 ≤ z := hval z (by simp [hv, hz])
      positivity

/-- Witness for C7: one update with the single-layer activation
`[[[1, 2]]]` gives `value = [5/2]`, `count = 1`, radicand `5/2 ≥ 0`. -/
theorem claim_C7_witness :
    ((5 / 2 : ℚ) ∈ RMS.computeVal (runRMS [(1, ⟨[[[[(1 : ℚ), 2]]]], none⟩)] ⟨none, 0⟩))
    ∧ (0 ≤ (5 / 2 : ℚ) ∧ 0 ≤ Real.sqrt ((5 / 2 : ℚ) : ℝ)) :=
  ⟨by with_unfolding_all decide,
    claim_C7.2 [(1, ⟨[[[[(1 : ℚ), 2]]]], none⟩)] (5 / 2)
      (by with_unfolding_all decide)⟩

/-- C8: `Kurtosis.update` adds, for each layer, the population
(non-excess) kurtosis along the hidden-width axis — `m4 / m2 ^ 2`, no
subtraction of 3 (`fisher=False`) — averaged over positions and summed
over the batch, into that layer's entry of `value`. -/
theorem claim_C8 (B : ℕ) (s : MetricState) (out : Output) (v : List ℚ)
    (hv : s.value = some v) (hlen : v.length = out.layer_activations.length) :
    ∃ w, (Kurtosis.update B s out).1.value = some w
      ∧ w.length = v.length
      ∧ ∀ i, i < v.length →
          w.getD i 0 = v.getD i 0 + layerKurtosis (out.layer_activations.getD i []) := by
  refine ⟨List.zipWith (· + ·) v (out.layer_activations.map layerKurtosis),
    by simp [Kurtosis.update, addValue, hv], ?_, ?_⟩
  · simp [List.length_zipWith, hlen]
  · intro i hi
    have hi2 : i < out.layer_activations.length := hlen ▸ hi
    have hiz : i < (List.zipWith (· + ·) v
        (out.layer_activations.map layerKurtosis)).length := by
      simp [List.length_zipWith, hlen, hi2]
    have him : i < (out.layer_activations.map layerKurtosis).length := by
      simp [hi2]
    rw [List.getD_eq_getElem _ _ hiz, List.getD_eq_getElem _ _ hi,
      List.getD_eq_getElem _ _ hi2, List.getElem_zipWith, List.getElem_map]

/-- Witness for C8: starting from `value = [2]`, one update with the
single-layer activation `[[[1, 2]]]` (whose kurtosis along the width is 1)
is characterized by the theorem. -/
theorem claim_C8_witness :
    ((⟨some [2], 5⟩ : MetricState).value = some [2])
    ∧ (([2] : List ℚ).length
        = (⟨[[[[(1 : ℚ), 2]]]], none⟩ : Output).layer_activations.length)
    ∧ ∃ w, (Kurtosis.update 1 (⟨some [2], 5⟩ : MetricState)
          (⟨[[[[(1 : ℚ), 2]]]], none⟩ : Output)).1.value = some w
        ∧ w.length = ([2] : List ℚ).length
        ∧ ∀ i, i < ([2] : List ℚ).length →
            w.getD i 0 = ([2] : List ℚ).getD i 0
              + layerKurtosis ((⟨[[[[(1 : ℚ), 2]]]], none⟩ : Output).layer_activations.getD i []) :=
  ⟨rfl, rfl,
    claim_C8 1 ⟨some [2], 5⟩ ⟨[[[[(1 : ℚ), 2]]]], none⟩ [2] rfl rfl⟩

end ResidualStreams
